import Mathlib

/-!
Shallow embedding of the BSDPy NetBoot server (src/bsdpserver.py) and proofs
about its entitlement filter, default-image selection, BSDP option codec and
protocol engine.  Byte sequences are modelled as `List Nat` (the Python code
manipulates plain int lists produced by pydhcplib), strings as `String`, and
the module-level mutable globals `defaultnbi` / `hasdefault` as an explicit
state value threaded through the functions that read and write them.
-/

namespace Bsdpy

/-- One catalog record: the `thisnbi` dict built by `getNbiOptions`
(bsdpserver.py lines 360-422).  `name` holds the raw name bytes, `length` the
memoized name length (`thisnbi['length'] = len(nbimageinfo['Name'])`), `dmg`
is `none` for `BootFileOnly` records (the `dmg` key is then absent). -/
structure Nbi where
  id : Nat
  name : List Nat
  length : Nat
  description : String
  isdefault : Bool
  booter : String
  dmg : Option String
  enabledsysids : List String
  disabledsysids : List String
  enabledmacaddrs : List String
deriving DecidableEq

/-- The process-wide mutable globals `defaultnbi` and `hasdefault`
(bsdpserver.py lines 933-936; both are initialized once at module load and
never reset between requests). -/
structure GState where
  defaultnbi : Nat
  hasdefault : Bool
deriving DecidableEq

/-- Initial value of the globals at process start (lines 935-936). -/
def initGState : GState := { defaultnbi := 0, hasdefault := false }

/-- The DHCP request fields the engine reads (via `packet.GetOption`).  The
remaining envelope fields (`htype`, `hlen`, `xid`, ...) are copied verbatim
into the reply and are not touched by any claim, so they are omitted. -/
structure Packet where
  vendor_encapsulated_options : List Nat
  vendor_class_identifier : String
  chaddr : List Nat
  ciaddr : List Nat
  request_ip_address : List Nat
deriving DecidableEq

/-- The parts of the reply packet the claims are about: the reply's
vendor-encapsulated-options blob, the `file` / `root_path` options (set only
for SELECT, hence `Option`), and the destination the caller sends to. -/
structure Reply where
  veo : List Nat
  file : Option String
  root_path : Option String
  clientip : List Nat
  replyport : Nat
deriving DecidableEq

/-- Which BSDP request `ack` is processing (its `msgtype` argument). -/
inductive MsgType where
  | list
  | select
deriving DecidableEq

/-- Python's `hex(n)[2:]` digit: lowercase, `0`-`9` then `a`-`f`. -/
def hexDigit (n : Nat) : Char :=
  Char.ofNat (if n < 10 then 48 + n else 87 + n)

/-- Python's `hex(i)[2:]` for a byte value `i < 256`: lowercase hex WITHOUT
zero padding, so values below 16 render as a single digit. -/
def byteHex (n : Nat) : String :=
  if n < 16 then String.mk [hexDigit n]
  else String.mk [hexDigit (n / 16), hexDigit (n % 16)]

/-- Python's `sep.join(parts)`. -/
def joinSep (sep : String) : List String → String
  | [] => ""
  | [s] => s
  | s :: rest => s ++ sep ++ joinSep sep rest

/-- `chaddr_to_mac` (lines 331-334):
`":".join(hex(i)[2:] for i in chaddr[0:6])`. -/
def chaddr_to_mac (chaddr : List Nat) : String :=
  joinSep (":") ((chaddr.take 6).map byteHex)

/-- Helper for `pySplit`: accumulates the current field (in reverse). -/
def splitAux (sep : Char) : List Char → List Char → List String
  | [], acc => [String.mk acc.reverse]
  | c :: cs, acc =>
    if c = sep then String.mk acc.reverse :: splitAux sep cs []
    else splitAux sep cs (c :: acc)

/-- Python's `s.split(sep)` for a one-character separator: always returns at
least one field, keeps empty fields. -/
def pySplit (s : String) (sep : Char) : List String :=
  splitAux sep s.toList []

/-- The `bsdpoptioncodes` dict (lines 116-127); an unknown code raises a
`KeyError` in the Python code, modelled as `none`. -/
def bsdpoptioncodes : Nat → Option String
  | 1 => some ("message_type")
  | 2 => some ("version")
  | 3 => some ("server_identifier")
  | 4 => some ("server_priority")
  | 5 => some ("reply_port")
  | 6 => some ("image_icon_unused")
  | 7 => some ("default_boot_image")
  | 8 => some ("selected_boot_image")
  | 9 => some ("boot_image_list")
  | 10 => some ("netboot_v1")
  | 11 => some ("boot_image_attributes")
  | 12 => some ("max_message_size")
  | _ => none

/-- Python dict assignment `m[k] = v`: overwrite the binding of `k` if it
exists, otherwise append it. -/
def dictSet : List (String × List Nat) → String → List Nat → List (String × List Nat)
  | [], k, v => [(k, v)]
  | (k', v') :: rest, k, v =>
    if k' = k then (k, v) :: rest else (k', v') :: dictSet rest k v

/-- Python dict lookup `m.get(k)`. -/
def dictGet (m : List (String × List Nat)) (k : String) : Option (List Nat) :=
  (m.find? (fun p => p.1 == k)).map (fun p => p.2)

/-- The scanning `while` loop of `parseOptions` (lines 613-629), fueled to
make the decreasing pointer explicit.  At pointer `p` it reads the code byte
`opts[p]`, the length byte `opts[p+1]` (Python raises `IndexError` when the
blob ends after the code byte: `none`), translates the code through
`bsdpoptioncodes` (`KeyError` for unknown codes: `none`), records the value
slice `opts[p+2 : p+2+len]` (Python slices clamp, as `drop`/`take` do) and
jumps to `p + 2 + len`.  The fuel passed by `parseOptions` exceeds the number
of iterations, so it is never exhausted there. -/
def scanAux : Nat → List Nat → Nat → Option (List (String × List Nat))
  | 0, _, _ => none
  | fuel + 1, opts, pointer =>
    if pointer < opts.length then
      match opts[pointer + 1]? with
      | none => none
      | some optionlength =>
        match bsdpoptioncodes (opts.getD pointer 0) with
        | none => none
        | some nm =>
          match scanAux fuel opts (pointer + 1 + optionlength + 1) with
          | none => none
          | some rest => some ((nm, (opts.drop (pointer + 2)).take optionlength) :: rest)
    else some []

/-- `parseOptions` (lines 597-631): scan the blob into `(name, value)` entries
in order, then build the `optionvalues` dict; a later occurrence of a code
overwrites the earlier binding, exactly as repeated Python dict assignment
does.  The two Python passes (record `(start, len)` in `msgtypes`, then slice
into `optionvalues`) are composed into one here; the resulting mapping is
identical. -/
def parseOptions (bsdpoptions : List Nat) : Option (List (String × List Nat)) :=
  (scanAux (bsdpoptions.length + 1) bsdpoptions 0).map
    (fun entries => entries.foldl (fun m p => dictSet m p.1 p.2) [])

/-- Length of Python's `format(n, 'x')` for a byte value `n ≤ 255`: one hex
digit below 16, two otherwise (no zero padding). -/
def formatXLen (n : Nat) : Nat := if n < 16 then 1 else 2

/-- The reply-port computation of `ack` (lines 683-687):
`int(format(b0,'x') + format(b1,'x'), 16)`.  Concatenating the two unpadded
hex strings and reparsing yields `b0 * 16 ^ len(format(b1,'x')) + b1`. -/
def replyportOf (b0 b1 : Nat) : Nat := b0 * 16 ^ formatXLen b1 + b1

/-- Reply port resolution: the `reply_port` BSDP sub-option if present (its
first two value bytes fed to `replyportOf`; fewer than two bytes raises an
`IndexError`, modelled `none`), else port 68. -/
def replyportResult (bsdpoptions : List (String × List Nat)) : Option Nat :=
  match dictGet bsdpoptions ("reply_port") with
  | some v =>
    match v[0]?, v[1]? with
    | some b0, some b1 => some (replyportOf b0 b1)
    | _, _ => none
  | none => some 68

/-- One iteration of the `getSysIdEntitlement` filter loop (lines 471-514),
as the condition under which `thisnbi` is appended to `nbientitlements`:
1. both sysid lists contain the client (`hasdupes`): skip;
2. non-empty MAC allow-list without the client MAC: skip (`continue`);
3. both sysid lists empty: append;
4. client in `disabledsysids`: skip;
5. the final `elif clientsysid not in enabledsysids or (clientsysid in
   enabledsysids and clientsysid not in disabledsysids)`: append.
(The loop body has no `else`; falling through skips.) -/
def nbiAllowed (clientsysid clientmacaddr : String) (thisnbi : Nbi) : Bool :=
  if thisnbi.disabledsysids.contains clientsysid && thisnbi.enabledsysids.contains clientsysid then false
  else if !thisnbi.enabledmacaddrs.isEmpty && !thisnbi.enabledmacaddrs.contains clientmacaddr then false
  else if thisnbi.disabledsysids.isEmpty && thisnbi.enabledsysids.isEmpty then true
  else if thisnbi.disabledsysids.contains clientsysid then false
  else if !thisnbi.enabledsysids.contains clientsysid ||
          (thisnbi.enabledsysids.contains clientsysid &&
           !thisnbi.disabledsysids.contains clientsysid) then true
  else false

/-- The filtering part of `getSysIdEntitlement` (lines 433-519): iterate the
catalog in order, appending each record that `nbiAllowed` accepts.  (In the
source the function then calls `doEntitlementPostProcessing` before returning
the entitlements; that call is modelled separately to keep the global-state
flow explicit, see `getSysIdEntitlementS`.) -/
def getSysIdEntitlement (nbisources : List Nbi) (clientsysid clientmacaddr : String) : List Nbi :=
  nbisources.filter (nbiAllowed clientsysid clientmacaddr)

/-- The two bytes the code obtains from `'%04X' % id` chunked into pairs of
hex digits (lines 576-585): on the 16-bit id domain of the catalog this is
the big-endian byte pair of the id. -/
def imageidList (id : Nat) : List Nat := [id / 256, id % 256]

/-- The `imagenameslist` entry appended for one entitled record
(lines 586-587): `[129, 0] + imageid + [length] + name bytes`. -/
def entryOf (image : Nbi) : List Nat :=
  [129, 0] ++ imageidList image.id ++ [image.length] ++ image.name

/-- The default-image bookkeeping of one `doEntitlementPostProcessing` loop
iteration (lines 545-567) on the globals: a default image raises `defaultnbi`
when its id is larger (setting `hasdefault`); a non-default image raises
`defaultnbi` only while `hasdefault` is still false (and then leaves
`hasdefault` unchanged). -/
def postStep (st : GState) (image : Nbi) : GState :=
  if image.isdefault then
    (if st.defaultnbi < image.id then { defaultnbi := image.id, hasdefault := true } else st)
  else if !st.hasdefault then
    (if st.defaultnbi < image.id then { defaultnbi := image.id, hasdefault := st.hasdefault } else st)
  else st

/-- The full `doEntitlementPostProcessing` loop (lines 545-587): one pass
over the entitlements that both updates the globals and appends the
`imagenameslist` entries. -/
def postProcessLoop : GState → List Nat → List Nbi → GState × List Nat
  | st, acc, [] => (st, acc)
  | st, acc, image :: rest => postProcessLoop (postStep st image) (acc ++ entryOf image) rest

/-- `doEntitlementPostProcessing` (lines 525-594): `imagenameslist` is reset
to `[]` on entry (line 540); `defaultnbi` / `hasdefault` are NOT reset and
carry over from earlier requests.  Returns the updated globals and the
freshly built `imagenameslist` (the source returns `nbientitlements`
unchanged). -/
def doEntitlementPostProcessing (st : GState) (nbientitlements : List Nbi) : GState × List Nat :=
  postProcessLoop st [] nbientitlements

/-- `getSysIdEntitlement` as the source composes it (filter, then
post-processing of the globals): result entitlements, updated globals, and
the `imagenameslist` blob. -/
def getSysIdEntitlementS (st : GState) (nbisources : List Nbi) (clientsysid clientmacaddr : String) :
    List Nbi × GState × List Nat :=
  let ents := getSysIdEntitlement nbisources clientsysid clientmacaddr
  let pp := doEntitlementPostProcessing st ents
  (ents, pp.1, pp.2)

/-- `nameslength` accumulation of the LIST branch (lines 713-720):
`for i in enablednbis: nameslength += i['length']`. -/
def sumLengths (l : List Nbi) : Nat := l.foldl (fun a i => a + i.length) 0

/-- The encoded option-7 bytes `[7, 4, 129, 0] + '%04X' chunks` of the
default id (lines 732-737). -/
def defaultnbiOpt (d : Nat) : List Nat := [7, 4, 129, 0] ++ imageidList d

/-- The null-default test of the LIST branch (line 739):
`int(defaultnbi[-1:][0]) == 0`, i.e. it looks only at the LAST byte (the low
byte of the id). -/
def hasnulldefault (d : Nat) : Bool := (defaultnbiOpt d).getLastD 0 == 0

/-- `compiledlistpacket` (lines 749-752): `[1,1,1,4,2] + serverpriority`,
then the option-7 bytes unless `hasnulldefault`, then
`[9, totallength] + imagenameslist`. -/
def compiledListPacket (serverpriority : List Nat) (d : Nat) (totallength : Nat)
    (imagenameslist : List Nat) : List Nat :=
  [1, 1, 1, 4, 2] ++ serverpriority ++
  (if hasnulldefault d then [] else defaultnbiOpt d) ++
  [9, totallength] ++ imagenameslist

/-- Python's `s.ljust(w, '\x00')`. -/
def ljust (s : String) (w : Nat) : String :=
  s ++ String.mk (List.replicate (w - s.length) (Char.ofNat 0))

/-- The SELECT lookup loop (lines 807-828) over `enablednbis`, carrying
`(booterfile, rootpath, selectedimage)` (initialized `('', '', [])`); a later
match overwrites an earlier one.  Non-API mode: `rootpath = basedmgpath +
nbidict['dmg']`; when the record has no `dmg` key the `KeyError` is caught by
the inner `except: continue`, after `booterfile` was already assigned. -/
def selectLoop (basedmgpath : String) (imageid : Nat) (sel : List Nat) :
    List Nbi → String × String × List Nat → String × String × List Nat
  | [], acc => acc
  | nbi :: rest, acc =>
    if nbi.id = imageid then
      match nbi.dmg with
      | some dmg => selectLoop basedmgpath imageid sel rest (nbi.booter, basedmgpath ++ dmg, sel)
      | none => selectLoop basedmgpath imageid sel rest (nbi.booter, acc.2.1, acc.2.2)
    else selectLoop basedmgpath imageid sel rest acc

/-- `ack` (lines 634-871) in non-API mode.  `dparam` is the `defaultnbi`
argument `main` passes (the value of the global BEFORE this request's
entitlement pass).  Any exception escaping `ack` is caught by the blanket
`except: pass` of the main loop, so failures yield no reply (`none`); the
globals keep whatever value they had when the exception was raised.
The `selected_boot_image` id is `int('%02X' % v[2] + '%02X' % v[3], 16)`
(zero-padded, so `256 * v[2] + v[3]` on byte values); the `nbiurl` /
`getBaseDmgPath` refresh (lines 797-804) raises `NameError` and is skipped in
the modelled configuration (no `BSDPY_NBI_URL`). -/
def ack (catalog : List Nbi) (basedmgpath : String) (serverpriority : List Nat)
    (st : GState) (dparam : Nat) (msgtype : MsgType) (packet : Packet) :
    Option Reply × GState :=
  match (pySplit packet.vendor_class_identifier '/')[2]? with
  | none => (none, st)
  | some clientsysid =>
    let clientmacaddr := chaddr_to_mac packet.chaddr
    let clientip := if packet.ciaddr = [0, 0, 0, 0] then packet.request_ip_address else packet.ciaddr
    match parseOptions packet.vendor_encapsulated_options with
    | none => (none, st)
    | some bsdpoptions =>
      let nbientitlements := getSysIdEntitlement catalog clientsysid clientmacaddr
      let pp := doEntitlementPostProcessing st nbientitlements
      match replyportResult bsdpoptions with
      | none => (none, pp.1)
      | some replyport =>
        match msgtype with
        | MsgType.list =>
          (some { veo := compiledListPacket serverpriority dparam
                    (nbientitlements.length * 5 + sumLengths nbientitlements) pp.2,
                  file := none, root_path := none,
                  clientip := clientip, replyport := replyport }, pp.1)
        | MsgType.select =>
          match dictGet bsdpoptions ("selected_boot_image") with
          | none => (none, pp.1)
          | some sel =>
            match sel[2]?, sel[3]? with
            | some b2, some b3 =>
              let sres := selectLoop basedmgpath (256 * b2 + b3) sel nbientitlements ("", "", [])
              (some { veo := [1, 1, 2, 8, 4] ++ sres.2.2,
                      file := some (ljust sres.1 128),
                      root_path := some sres.2.1,
                      clientip := clientip, replyport := replyport }, pp.1)
            | _, _ => (none, pp.1)

/-- The dispatch of the main receive loop (lines 1046-1084): a packet is
handled only when its vendor-encapsulated-options blob has length > 1 and its
byte at index 2 equals 1 (LIST, passing the current global `defaultnbi`) or 2
(SELECT); everything else falls through (the `len <= 7` arm is only reached
when the byte at index 2 is neither 1 nor 2 and does nothing). -/
def handleInform (catalog : List Nbi) (basedmgpath : String) (serverpriority : List Nat)
    (st : GState) (packet : Packet) : Option Reply × GState :=
  if packet.vendor_encapsulated_options.length > 1 then
    match packet.vendor_encapsulated_options[2]? with
    | none => (none, st)
    | some b =>
      if b = 1 then ack catalog basedmgpath serverpriority st st.defaultnbi MsgType.list packet
      else if b = 2 then ack catalog basedmgpath serverpriority st 0 MsgType.select packet
      else (none, st)
  else (none, st)

/-- A well-formed vendor-options blob assembled from `(code, value)`
sub-option triples: `code :: length :: value` for each. -/
def flattenTriples : List (Nat × List Nat) → List Nat
  | [] => []
  | (c, v) :: ts => c :: v.length :: (v ++ flattenTriples ts)

/-- The `(name, value)` entries the scan should produce for a well-formed
blob, in blob order. -/
def namedOf (ts : List (Nat × List Nat)) : List (String × List Nat) :=
  ts.map (fun p => ((bsdpoptioncodes p.1).getD (""), p.2))

/-- Modelled from the spec (§4.3, §8 law 5), for comparison with the code:
the default id is `max{id : admitted ∧ is_default}` if some admitted record
is default, else `max{id : admitted}` if any record is admitted, else 0. -/
def specDefaultId (ents : List Nbi) : Nat :=
  let ds := (ents.filter (fun i => i.isdefault)).map (fun i => i.id)
  if !ds.isEmpty then ds.foldl max 0
  else if !ents.isEmpty then (ents.map (fun i => i.id)).foldl max 0
  else 0

/-- `max{id : admitted}` as a fold (spec-side helper). -/
def maxIdOf (l : List Nbi) : Nat := l.foldl (fun a i => max a i.id) 0

/-- Concrete record whose allow-list names another model: only `Mac-Y` is
enabled, nothing is disabled, no MAC restriction. -/
def nbiY : Nbi :=
  { id := 9, name := [78], length := 1, description := "", isdefault := false,
    booter := "b", dmg := some ("d.dmg"), enabledsysids := ["Mac-Y"], disabledsysids := [],
    enabledmacaddrs := [] }

/-- Concrete unrestricted default record, id 0x1001, name TestImage. -/
def nbiTest : Nbi :=
  { id := 4097, name := [84, 101, 115, 116, 73, 109, 97, 103, 101], length := 9,
    description := "", isdefault := true, booter := "booter", dmg := some ("TestImage.dmg"),
    enabledsysids := [], disabledsysids := [], enabledmacaddrs := [] }

/-- Concrete unrestricted non-default record with id 5. -/
def r5 : Nbi :=
  { id := 5, name := [70], length := 1, description := "", isdefault := false,
    booter := "fiveboot", dmg := some ("five.dmg"), enabledsysids := [], disabledsysids := [],
    enabledmacaddrs := [] }

/-- Concrete unrestricted non-default record with id 10. -/
def nb10 : Nbi := { nbiY with id := 10, enabledsysids := [] }

/-- Concrete unrestricted DEFAULT record with id 5. -/
def nb5d : Nbi := { nbiTest with id := 5 }

/-- Concrete unrestricted non-default record with id 7. -/
def nb7 : Nbi := { nbiY with id := 7, enabledsysids := [] }

/-- Concrete unrestricted non-default record with id 3. -/
def nb3 : Nbi := { nbiY with id := 3, enabledsysids := [] }

/-- Concrete LIST request: 3-byte vendor options blob `[1,1,1]`. -/
def pktL : Packet :=
  { vendor_encapsulated_options := [1, 1, 1],
    vendor_class_identifier := "AAPLBSDPC/i386/Mac-TEST",
    chaddr := [170, 187, 204, 221, 238, 255], ciaddr := [10, 0, 0, 5],
    request_ip_address := [0, 0, 0, 0] }

/-- Concrete SELECT request for image id 7 (`[8,4,129,0,0,7]`). -/
def pktS : Packet :=
  { vendor_encapsulated_options := [1, 1, 2, 8, 4, 129, 0, 0, 7],
    vendor_class_identifier := "AAPLBSDPC/i386/Mac-TEST",
    chaddr := [170, 187, 204, 221, 238, 255], ciaddr := [10, 0, 0, 6],
    request_ip_address := [0, 0, 0, 0] }

/-- Concrete request whose vendor options blob starts with a
`server_priority` (code 4) sub-option, not `message_type`. -/
def pkt4 : Packet :=
  { vendor_encapsulated_options := [4, 2, 0, 0],
    vendor_class_identifier := "AAPLBSDPC/i386/Mac-TEST",
    chaddr := [170, 187, 204, 221, 238, 255], ciaddr := [10, 0, 0, 7],
    request_ip_address := [0, 0, 0, 0] }

/-- The parsed option dict of `pktS`. -/
def mS : List (String × List Nat) :=
  [(("message_type"), [2]), (("selected_boot_image"), [129, 0, 0, 7])]

/-- Triples with a duplicated code 5 (`reply_port`) for the decoder claim. -/
def ts0 : List (Nat × List Nat) := [(5, [1, 2]), (3, [10, 0, 2, 1]), (5, [31, 144])]

/-- Concrete unrestricted DEFAULT record with id 9. -/
def nb9d : Nbi := { nbiTest with id := 9 }

/-- The reply `ack` produces for `pktL` against the catalog `[nbiTest]` with
`dparam = 4097` (computed by evaluation). -/
def rL : Reply :=
  { veo := [1, 1, 1, 4, 2, 1, 2, 7, 4, 129, 0, 16, 1, 9, 14, 129, 0, 16, 1, 9,
            84, 101, 115, 116, 73, 109, 97, 103, 101],
    file := none, root_path := none, clientip := [10, 0, 0, 5], replyport := 68 }

/-- The global state after that call. -/
def stL : GState := { defaultnbi := 4097, hasdefault := true }

/-! ### Helper lemmas -/

theorem dictGet_dictSet_self (m : List (String × List Nat)) (k : String) (v : List Nat) :
    dictGet (dictSet m k v) k = some v := by
  induction m with
  | nil => simp [dictGet, dictSet]
  | cons p rest ih =>
    obtain ⟨k', v'⟩ := p
    by_cases h : k' = k
    · simp [dictSet, h, dictGet]
    · simp only [dictSet, if_neg h]
      unfold dictGet
      rw [List.find?_cons_of_neg _ (by simp [h])]
      exact ih

theorem dictGet_dictSet_ne (m : List (String × List Nat)) (k k' : String) (v : List Nat)
    (h : k' ≠ k) : dictGet (dictSet m k' v) k = dictGet m k := by
  induction m with
  | nil => simp [dictGet, dictSet, h]
  | cons p rest ih =>
    obtain ⟨k₁, v₁⟩ := p
    by_cases hp : k₁ = k'
    · subst hp
      simp only [dictSet, eq_self_iff_true, if_true]
      unfold dictGet
      rw [List.find?_cons_of_neg _ (by simp [h]), List.find?_cons_of_neg _ (by simp [h])]
    · simp only [dictSet, if_neg hp]
      by_cases hk : k₁ = k
      · unfold dictGet
        rw [List.find?_cons_of_pos _ (by simp [hk]), List.find?_cons_of_pos _ (by simp [hk])]
      · unfold dictGet
        rw [List.find?_cons_of_neg _ (by simp [hk]), List.find?_cons_of_neg _ (by simp [hk])]
        exact ih

theorem dictGet_foldl (entries : List (String × List Nat)) (m₀ : List (String × List Nat))
    (k : String) :
    dictGet (entries.foldl (fun m p => dictSet m p.1 p.2) m₀) k =
      (match entries.reverse.find? (fun p => p.1 == k) with
       | some p => some p.2
       | none => dictGet m₀ k) := by
  induction entries generalizing m₀ with
  | nil => simp
  | cons e rest ih =>
    have base := ih (dictSet m₀ e.1 e.2)
    rw [List.foldl_cons, base]
    rw [List.reverse_cons, List.find?_append]
    cases hfind : rest.reverse.find? (fun p => p.1 == k) with
    | some p => simp [Option.or]
    | none =>
      by_cases he : e.1 = k
      · rw [List.find?_cons_of_pos _ (by simp [he])]
        subst he
        simp [Option.or, dictGet_dictSet_self]
      · rw [List.find?_cons_of_neg _ (by simp [he])]
        simp [Option.or, dictGet_dictSet_ne m₀ k e.1 e.2 he]

theorem scanAux_append (fuel : Nat) : ∀ (pre ys : List Nat) (p : Nat),
    scanAux fuel (pre ++ ys) (pre.length + p) = scanAux fuel ys p := by
  induction fuel with
  | zero => intro pre ys p; rfl
  | succ fuel ih =>
    intro pre ys p
    simp only [scanAux]
    by_cases hp : p < ys.length
    · rw [if_pos (by simp only [List.length_append]; omega), if_pos hp]
      have hidx1 : (pre ++ ys)[pre.length + p + 1]? = ys[p + 1]? := by
        rw [List.getElem?_append_right (by omega)]
        congr 1
        omega
      have hgd : (pre ++ ys).getD (pre.length + p) 0 = ys.getD p 0 := by
        rw [List.getD_eq_getElem?_getD, List.getD_eq_getElem?_getD,
            List.getElem?_append_right (by omega)]
        have hpp : pre.length + p - pre.length = p := by omega
        rw [hpp]
      rw [hidx1, hgd]
      cases hol : ys[p + 1]? with
      | none => rfl
      | some ol =>
        dsimp only
        cases hco : bsdpoptioncodes (ys.getD p 0) with
        | none => rfl
        | some nm =>
          dsimp only
          have hptr : pre.length + p + 1 + ol + 1 = pre.length + (p + 1 + ol + 1) := by omega
          rw [hptr, ih]
          cases hrec : scanAux fuel ys (p + 1 + ol + 1) with
          | none => rfl
          | some rest =>
            dsimp only
            have hdrop : (pre ++ ys).drop (pre.length + p + 2) = ys.drop (p + 2) := by
              rw [show pre.length + p + 2 = pre.length + (p + 2) by omega, List.drop_append]
            rw [hdrop]
    · rw [if_neg (by simp only [List.length_append]; omega), if_neg hp]

theorem flattenTriples_length (ts : List (Nat × List Nat)) :
    2 * ts.length ≤ (flattenTriples ts).length := by
  induction ts with
  | nil => simp [flattenTriples]
  | cons q ts ih =>
    obtain ⟨c, v⟩ := q
    simp only [flattenTriples, List.length_cons, List.length_append]
    omega

theorem scanAux_flattenTriples : ∀ (ts : List (Nat × List Nat)) (fuel : Nat),
    ts.length < fuel → (∀ q ∈ ts, (bsdpoptioncodes q.1).isSome = true) →
    scanAux fuel (flattenTriples ts) 0 = some (namedOf ts) := by
  intro ts
  induction ts with
  | nil =>
    intro fuel hf _
    cases fuel with
    | zero => omega
    | succ f => simp [scanAux, flattenTriples, namedOf]
  | cons q ts ih =>
    obtain ⟨c, v⟩ := q
    intro fuel hf hwf
    cases fuel with
    | zero => omega
    | succ f =>
      obtain ⟨nm, hnm⟩ : ∃ nm, bsdpoptioncodes c = some nm := by
        have hq := hwf (c, v) (List.mem_cons_self _ _)
        cases h : bsdpoptioncodes c with
        | none => rw [h] at hq; simp at hq
        | some nm => exact ⟨nm, rfl⟩
      simp only [flattenTriples, scanAux]
      rw [if_pos (by simp)]
      have h1 : (c :: v.length :: (v ++ flattenTriples ts))[0 + 1]? = some v.length := by simp
      have hgd : (c :: v.length :: (v ++ flattenTriples ts)).getD 0 0 = c := by simp
      rw [h1, hgd, hnm]
      dsimp only
      have hsplitlist : c :: v.length :: (v ++ flattenTriples ts) =
          (c :: v.length :: v) ++ flattenTriples ts := by simp
      have hrec : scanAux f (c :: v.length :: (v ++ flattenTriples ts)) (0 + 1 + v.length + 1) =
          scanAux f (flattenTriples ts) 0 := by
        rw [hsplitlist, show 0 + 1 + v.length + 1 = (c :: v.length :: v).length + 0 by
              simp only [List.length_cons]; omega, scanAux_append]
      rw [hrec, ih f (by simp at hf; omega) (fun q hq => hwf q (List.mem_cons_of_mem _ hq))]
      dsimp only
      have hslice : ((c :: v.length :: (v ++ flattenTriples ts)).drop (0 + 2)).take v.length = v := by
        have hd : (c :: v.length :: (v ++ flattenTriples ts)).drop (0 + 2) = v ++ flattenTriples ts := by
          simp
        rw [hd, List.take_left]
      rw [hslice]
      simp [namedOf, hnm]

theorem postProcessLoop_snd : ∀ (l : List Nbi) (st : GState) (acc : List Nat),
    (postProcessLoop st acc l).2 = acc ++ (l.map entryOf).flatten := by
  intro l
  induction l with
  | nil => intro st acc; simp [postProcessLoop]
  | cons a t ih =>
    intro st acc
    simp [postProcessLoop, ih, List.append_assoc]

theorem postProcessLoop_fst : ∀ (l : List Nbi) (st : GState) (acc : List Nat),
    (postProcessLoop st acc l).1 = l.foldl postStep st := by
  intro l
  induction l with
  | nil => intro st acc; rfl
  | cons a t ih =>
    intro st acc
    simp [postProcessLoop, ih]

theorem foldl_postStep_nodefault : ∀ (l : List Nbi) (d : Nat),
    (∀ i ∈ l, i.isdefault = false) →
    l.foldl postStep { defaultnbi := d, hasdefault := false } =
      { defaultnbi := l.foldl (fun a i => max a i.id) d, hasdefault := false } := by
  intro l
  induction l with
  | nil => intro d _; rfl
  | cons a t ih =>
    intro d h
    have ha : a.isdefault = false := h a (List.mem_cons_self a t)
    have hstep : postStep { defaultnbi := d, hasdefault := false } a =
        { defaultnbi := max d a.id, hasdefault := false } := by
      simp only [postStep, ha, Bool.false_eq_true, if_false, Bool.not_false, if_true]
      by_cases hlt : d < a.id
      · rw [if_pos hlt, Nat.max_eq_right (Nat.le_of_lt hlt)]
      · rw [if_neg hlt, Nat.max_eq_left (Nat.le_of_not_lt hlt)]
    rw [List.foldl_cons, hstep, List.foldl_cons]
    exact ih (max d a.id) (fun i hi => h i (List.mem_cons_of_mem a hi))

theorem selectLoop_nomatch : ∀ (l : List Nbi) (acc : String × String × List Nat)
    (bdp : String) (imageid : Nat) (sel : List Nat),
    (∀ nbi ∈ l, nbi.id ≠ imageid) → selectLoop bdp imageid sel l acc = acc := by
  intro l
  induction l with
  | nil => intro acc bdp imageid sel _; rfl
  | cons a t ih =>
    intro acc bdp imageid sel h
    have ha := h a (List.mem_cons_self a t)
    simp only [selectLoop, if_neg ha]
    exact ih acc bdp imageid sel (fun nbi hn => h nbi (List.mem_cons_of_mem a hn))

theorem sumLengthsAux : ∀ (l : List Nbi) (n : Nat), (∀ i ∈ l, i.length = i.name.length) →
    l.foldl (fun a i => a + i.length) n = n + (l.map (fun i => i.name.length)).sum := by
  intro l
  induction l with
  | nil => intro n _; simp
  | cons a t ih =>
    intro n h
    rw [List.foldl_cons, ih (n + a.length) (fun i hi => h i (List.mem_cons_of_mem a hi)),
        h a (List.mem_cons_self a t)]
    simp only [List.map_cons, List.sum_cons]
    omega

theorem flatten_entry_congr : ∀ (l : List Nbi), (∀ i ∈ l, i.length = i.name.length) →
    (l.map entryOf).flatten =
      (l.map (fun i => [129, 0, i.id / 256, i.id % 256, i.name.length] ++ i.name)).flatten := by
  intro l
  induction l with
  | nil => intro _; rfl
  | cons a t ih =>
    intro h
    have ha : a.length = a.name.length := h a (List.mem_cons_self a t)
    simp only [List.map_cons, List.flatten_cons,
               ih (fun i hi => h i (List.mem_cons_of_mem a hi))]
    simp [entryOf, imageidList, ha]

/-! ### Claim theorems -/

/-- C1: the claim (spec rule 6 and the function's own docstring) says a
record whose non-empty system-id allow-list does not contain the client is
skipped.  The code admits it: at this input no earlier rule applies
(`Mac-X` is in neither list, no MAC restriction, the lists are not both
empty, `Mac-X` is not disabled), yet the final `elif`'s first disjunct
`clientsysid not in enabledsysids` holds and the record is appended. -/
theorem thmC1_sysIdFilterBug :
    nbiY.enabledsysids ≠ [] ∧ nbiY.enabledsysids.contains ("Mac-X") = false ∧
    nbiY.disabledsysids = [] ∧ nbiY.enabledmacaddrs = [] ∧
    getSysIdEntitlement [nbiY] ("Mac-X") ("aa:bb:cc:dd:ee:ff") = [nbiY] := by decide

/-- C3 counterexample: on the admitted set `{id 10 non-default, id 5
default}` the spec formula gives `max{id : default} = 5`, but the code
(fresh globals) computes 10: the non-default record seen first raises
`defaultnbi` to 10 and the default record can no longer win. -/
theorem thmC3_defaultNotMaxDefault :
    specDefaultId [nb10, nb5d] = 5 ∧
    (doEntitlementPostProcessing initGState [nb10, nb5d]).1.defaultnbi = 10 := by decide

/-- C3 amended: when NO admitted record has `is_default = true` and the
process globals are still initial, the computed default id equals
`max{id : admitted}` (0 for the empty set); in general the result depends on
catalog order and on the globals carried over from earlier requests. -/
theorem thmC3_amendedNoDefaultMax (l : List Nbi) (h : ∀ i ∈ l, i.isdefault = false) :
    (doEntitlementPostProcessing initGState l).1.defaultnbi = maxIdOf l := by
  unfold doEntitlementPostProcessing initGState maxIdOf
  rw [postProcessLoop_fst, foldl_postStep_nodefault l 0 h]

/-- C3 amended, witness at the concrete admitted set `[nb7, nb3]`. -/
theorem thmC3_amendedNoDefaultMaxWitness :
    (∀ i ∈ [nb7, nb3], i.isdefault = false) ∧
    (doEntitlementPostProcessing initGState [nb7, nb3]).1.defaultnbi = 7 := by
  refine ⟨by decide, ?_⟩
  rw [thmC3_amendedNoDefaultMax [nb7, nb3] (by decide)]
  decide

/-- C4 counterexample: two entitlement calls with IDENTICAL inputs (catalog
`[nb5d]`, same client) yield default id 5 the first time and 9 after an
intervening call on a different catalog, because `defaultnbi`/`hasdefault`
persist across calls. -/
theorem thmC4_defaultDependsOnHistory :
    (getSysIdEntitlementS initGState [nb5d] ("Mac-X") ("m")).2.1.defaultnbi = 5 ∧
    (getSysIdEntitlementS ((getSysIdEntitlementS ((getSysIdEntitlementS initGState
        [nb5d] ("Mac-X") ("m")).2.1) [nb9d] ("Mac-X") ("m")).2.1)
      [nb5d] ("Mac-X") ("m")).2.1.defaultnbi = 9 := by decide

/-- C4 amended: the entitled list and the `imagenameslist` blob ARE pure
functions of (client identity, catalog): they do not depend on the global
state the call starts from; only the default id does. -/
theorem thmC4_amendedListAndBlobPure (st₁ st₂ : GState) (catalog : List Nbi) (cs cm : String) :
    (getSysIdEntitlementS st₁ catalog cs cm).1 = (getSysIdEntitlementS st₂ catalog cs cm).1 ∧
    (getSysIdEntitlementS st₁ catalog cs cm).2.2 = (getSysIdEntitlementS st₂ catalog cs cm).2.2 := by
  constructor
  · rfl
  · show (postProcessLoop st₁ [] (getSysIdEntitlement catalog cs cm)).2 =
        (postProcessLoop st₂ [] (getSysIdEntitlement catalog cs cm)).2
    rw [postProcessLoop_snd, postProcessLoop_snd]

/-- C5: the claim says sub-option 7 is omitted exactly when the default id is
0 (and never for a non-zero id with low byte 0).  The code tests only the
LAST byte of the encoded option: for default id 4096 (0x1000, non-zero) the
test fires and the LIST blob omits sub-option 7. -/
theorem thmC5_lowByteDefaultOmission :
    (4096 ≠ 0) ∧ hasnulldefault 4096 = true ∧
    compiledListPacket [1, 2] 4096 0 [] = [1, 1, 1, 4, 2, 1, 2, 9, 0] := by decide

/-- C6: the claim says the reply port equals `256*b0 + b1` for all byte
values.  The code concatenates UNPADDED hex strings: for value bytes
`[1, 5]` it computes `int('1' + '5', 16) = 21`, not `261`; the common case
`[0x1F, 0x90] -> 8080` works because both bytes have two hex digits. -/
theorem thmC6_replyPortUnpaddedHex :
    replyportOf 1 5 = 21 ∧ replyportOf 1 5 ≠ 256 * 1 + 5 ∧ replyportOf 31 144 = 8080 := by decide

/-- C7: the claim says every `chaddr` byte renders as exactly two hex digits.
`hex(i)[2:]` does not zero-pad, so bytes below 0x10 render as one digit and
the MAC is not comparable with canonical `aa:bb:cc:dd:ee:ff` entries. -/
theorem thmC7_macHexUnpadded :
    chaddr_to_mac [10, 187, 204, 221, 238, 15] = ("a:bb:cc:dd:ee:f") ∧
    chaddr_to_mac [10, 187, 204, 221, 238, 15] ≠ ("0a:bb:cc:dd:ee:0f") := by decide

/-- C2 counterexample: a SELECT for id 7 against a catalog whose only
entitled record has id 5 still produces a reply (the claim says the request
is silently dropped). -/
theorem thmC2_selectUnknownIdReplies :
    (∀ nbi ∈ getSysIdEntitlement [r5] ("Mac-TEST") (chaddr_to_mac pktS.chaddr), nbi.id ≠ 7) ∧
    (handleInform [r5] ("") [1, 2] initGState pktS).1 ≠ none := by decide

/-- C2 amended: for a well-formed SELECT whose selected id matches no
entitled record, the engine still sends an ACK whose `file` is 128 NUL
bytes, whose `root_path` is empty and whose vendor options are exactly
`[1,1,2,8,4]` with no image id appended. -/
theorem thmC2_amendedSelectAck (catalog : List Nbi) (basedmgpath : String)
    (serverpriority : List Nat) (st : GState) (packet : Packet) (clientsysid : String)
    (m : List (String × List Nat)) (sel : List Nat) (b2 b3 : Nat)
    (hcs : (pySplit packet.vendor_class_identifier '/')[2]? = some clientsysid)
    (hparse : parseOptions packet.vendor_encapsulated_options = some m)
    (hrp : replyportResult m ≠ none)
    (hsel : dictGet m ("selected_boot_image") = some sel)
    (hb2 : sel[2]? = some b2) (hb3 : sel[3]? = some b3)
    (hnomatch : ∀ nbi ∈ getSysIdEntitlement catalog clientsysid (chaddr_to_mac packet.chaddr),
      nbi.id ≠ 256 * b2 + b3) :
    ∃ r st', ack catalog basedmgpath serverpriority st 0 MsgType.select packet = (some r, st') ∧
      r.file = some (ljust ("") 128) ∧ r.root_path = some ("") ∧ r.veo = [1, 1, 2, 8, 4] := by
  obtain ⟨rp, hrp'⟩ : ∃ rp, replyportResult m = some rp := by
    cases h : replyportResult m with
    | none => exact absurd h hrp
    | some rp => exact ⟨rp, rfl⟩
  simp only [ack, hcs, hparse, hrp', hsel, hb2, hb3]
  rw [selectLoop_nomatch _ _ _ _ _ hnomatch]
  exact ⟨_, _, rfl, rfl, rfl, rfl⟩

/-- C2 amended, witness: concrete catalog `[r5]` and SELECT packet for id 7. -/
theorem thmC2_amendedSelectAckWitness :
    (parseOptions pktS.vendor_encapsulated_options = some mS) ∧
    (∀ nbi ∈ getSysIdEntitlement [r5] ("Mac-TEST") (chaddr_to_mac pktS.chaddr),
      nbi.id ≠ 256 * 0 + 7) ∧
    (∃ r st', ack [r5] ("") [1, 2] initGState 0 MsgType.select pktS = (some r, st') ∧
      r.file = some (ljust ("") 128) ∧ r.root_path = some ("") ∧ r.veo = [1, 1, 2, 8, 4]) := by
  refine ⟨by decide, by decide, ?_⟩
  exact thmC2_amendedSelectAck [r5] ("") [1, 2] initGState pktS ("Mac-TEST") mS
    [129, 0, 0, 7] 0 7 (by decide) (by decide) (by decide) (by decide) (by decide)
    (by decide) (by decide)

/-- C8 counterexample: a LIST whose whole vendor options blob is the 3-byte
`[1,1,1]` (7 bytes or shorter, which the claim says is ignored) is answered:
the dead `len <= 7` arm is only reached when the byte at index 2 is neither
1 nor 2. -/
theorem thmC8_shortBlobAnswered :
    pktL.vendor_encapsulated_options.length ≤ 7 ∧
    (handleInform [nbiTest] ("") [1, 2] initGState pktL).1 ≠ none := by decide

/-- C8 amended: the engine produces no reply whenever the blob has fewer
than 2 bytes, or no byte at index 2, or a byte at index 2 other than 1 and 2
(reply construction can also still fail later); short blobs whose byte at
index 2 IS 1 or 2 are processed normally. -/
theorem thmC8_amendedDispatchGuard (catalog : List Nbi) (basedmgpath : String)
    (serverpriority : List Nat) (st : GState) (packet : Packet)
    (h : ¬(packet.vendor_encapsulated_options.length > 1 ∧
          (packet.vendor_encapsulated_options[2]? = some 1 ∨
           packet.vendor_encapsulated_options[2]? = some 2))) :
    (handleInform catalog basedmgpath serverpriority st packet).1 = none := by
  unfold handleInform
  by_cases hlen : packet.vendor_encapsulated_options.length > 1
  · rw [if_pos hlen]
    cases hv : packet.vendor_encapsulated_options[2]? with
    | none => rfl
    | some b =>
      dsimp only
      have hb1 : b ≠ 1 := fun hb => h ⟨hlen, Or.inl (by rw [hv, hb])⟩
      have hb2 : b ≠ 2 := fun hb => h ⟨hlen, Or.inr (by rw [hv, hb])⟩
      rw [if_neg hb1, if_neg hb2]
  · rw [if_neg hlen]

/-- C8 amended, witness: a packet whose blob starts with sub-option code 4
(byte at index 2 is 0) gets no reply. -/
theorem thmC8_amendedDispatchGuardWitness :
    (¬(pkt4.vendor_encapsulated_options.length > 1 ∧
       (pkt4.vendor_encapsulated_options[2]? = some 1 ∨
        pkt4.vendor_encapsulated_options[2]? = some 2))) ∧
    (handleInform [] ("") [1, 2] initGState pkt4).1 = none := by
  refine ⟨by decide, ?_⟩
  exact thmC8_amendedDispatchGuard [] ("") [1, 2] initGState pkt4 (by decide)

/-- C9: every LIST reply's vendor options blob is exactly `[1,1,1]`, then
`[4,2,P0,P1]`, then optionally the default-image sub-option, then a
boot-image-list sub-option `[9, totalLen]` whose declared length is
`5*N + sum of name lengths` followed by the entries
`[129, 0, id_hi, id_lo, name_len] ++ name` of the admitted records in
catalog order. -/
theorem thmC9_listBlobShape (catalog : List Nbi) (basedmgpath : String) (p0 p1 : Nat)
    (st st' : GState) (d : Nat) (packet : Packet) (r : Reply) (clientsysid : String)
    (hcs : (pySplit packet.vendor_class_identifier '/')[2]? = some clientsysid)
    (hlen : ∀ i ∈ catalog, i.length = i.name.length)
    (_hid : ∀ i ∈ catalog, i.id < 65536)
    (hack : ack catalog basedmgpath [p0, p1] st d MsgType.list packet = (some r, st')) :
    r.veo = [1, 1, 1, 4, 2] ++ [p0, p1] ++
      (if hasnulldefault d then [] else defaultnbiOpt d) ++
      [9, 5 * (getSysIdEntitlement catalog clientsysid (chaddr_to_mac packet.chaddr)).length +
        ((getSysIdEntitlement catalog clientsysid (chaddr_to_mac packet.chaddr)).map
          (fun i => i.name.length)).sum] ++
      ((getSysIdEntitlement catalog clientsysid (chaddr_to_mac packet.chaddr)).map
        (fun i => [129, 0, i.id / 256, i.id % 256, i.name.length] ++ i.name)).flatten := by
  set ents := getSysIdEntitlement catalog clientsysid (chaddr_to_mac packet.chaddr) with hents
  have hsub : ∀ i ∈ ents, i.length = i.name.length := by
    intro i hi
    exact hlen i (List.mem_filter.mp (hents ▸ hi)).1
  unfold ack at hack
  rw [hcs] at hack
  dsimp only at hack
  cases hp : parseOptions packet.vendor_encapsulated_options with
  | none => rw [hp] at hack; simp at hack
  | some m =>
    rw [hp] at hack
    dsimp only at hack
    cases hq : replyportResult m with
    | none => rw [hq] at hack; simp at hack
    | some rp =>
      rw [hq] at hack
      dsimp only at hack
      rw [Prod.mk.injEq] at hack
      obtain ⟨hfst, _⟩ := hack
      have hr := Option.some.inj hfst
      have hveo : r.veo = compiledListPacket [p0, p1] d
          (ents.length * 5 + sumLengths ents)
          (doEntitlementPostProcessing st ents).2 := by
        rw [← hr]
      rw [hveo]
      unfold compiledListPacket
      have hT : ents.length * 5 + sumLengths ents =
          5 * ents.length + (ents.map (fun i => i.name.length)).sum := by
        rw [Nat.mul_comm]
        unfold sumLengths
        rw [sumLengthsAux ents 0 hsub, Nat.zero_add]
      have hinl : (doEntitlementPostProcessing st ents).2 =
          (ents.map (fun i => [129, 0, i.id / 256, i.id % 256, i.name.length] ++ i.name)).flatten := by
        unfold doEntitlementPostProcessing
        rw [postProcessLoop_snd, List.nil_append, flatten_entry_congr ents hsub]
      rw [hT, hinl]

/-- C9, witness: catalog `[nbiTest]` (id 0x1001, name TestImage), LIST packet
`pktL`, priority bytes `[1,2]`, default parameter 4097. -/
theorem thmC9_listBlobShapeWitness :
    ((pySplit pktL.vendor_class_identifier '/')[2]? = some ("Mac-TEST")) ∧
    (∀ i ∈ [nbiTest], i.length = i.name.length) ∧ (∀ i ∈ [nbiTest], i.id < 65536) ∧
    ack [nbiTest] ("") [1, 2] initGState 4097 MsgType.list pktL = (some rL, stL) ∧
    rL.veo = [1, 1, 1, 4, 2] ++ [1, 2] ++
      (if hasnulldefault 4097 then [] else defaultnbiOpt 4097) ++
      [9, 5 * (getSysIdEntitlement [nbiTest] ("Mac-TEST") (chaddr_to_mac pktL.chaddr)).length +
        ((getSysIdEntitlement [nbiTest] ("Mac-TEST") (chaddr_to_mac pktL.chaddr)).map
          (fun i => i.name.length)).sum] ++
      ((getSysIdEntitlement [nbiTest] ("Mac-TEST") (chaddr_to_mac pktL.chaddr)).map
        (fun i => [129, 0, i.id / 256, i.id % 256, i.name.length] ++ i.name)).flatten := by
  refine ⟨by decide, by decide, by decide, by decide, ?_⟩
  exact thmC9_listBlobShape [nbiTest] ("") 1 2 initGState stL 4097 pktL rL ("Mac-TEST")
    (by decide) (by decide) (by decide) (by decide)

/-- C10: for a well-formed blob the length-driven scan visits each
`(code, length, value)` triple exactly once, in order, and the resulting
mapping binds each code's name to the value bytes of the LAST occurrence of
that code in the blob. -/
theorem thmC10_parseLastWins (ts : List (Nat × List Nat))
    (hwf : ∀ q ∈ ts, (bsdpoptioncodes q.1).isSome = true) :
    scanAux ((flattenTriples ts).length + 1) (flattenTriples ts) 0 = some (namedOf ts) ∧
    ∀ nm : String, (parseOptions (flattenTriples ts)).map (fun m => dictGet m nm) =
      some (((namedOf ts).reverse.find? (fun p => p.1 == nm)).map (fun p => p.2)) := by
  have hscan := scanAux_flattenTriples ts ((flattenTriples ts).length + 1)
    (by have := flattenTriples_length ts; omega) hwf
  refine ⟨hscan, fun nm => ?_⟩
  unfold parseOptions
  rw [hscan]
  simp only [Option.map_some']
  rw [dictGet_foldl]
  cases hfind : (namedOf ts).reverse.find? (fun p => p.1 == nm) with
  | some p => rfl
  | none => simp [dictGet]

/-- C10, witness: the blob of `ts0` carries `reply_port` twice; the decoder
returns the LAST value `[31, 144]`. -/
theorem thmC10_parseLastWinsWitness :
    (∀ q ∈ ts0, (bsdpoptioncodes q.1).isSome = true) ∧
    (parseOptions (flattenTriples ts0)).map (fun m => dictGet m ("reply_port")) =
      some (some [31, 144]) := by
  refine ⟨by decide, ?_⟩
  rw [(thmC10_parseLastWins ts0 (by decide)).2 ("reply_port")]
  decide

end Bsdpy
